import Mathlib

/-!
Verification of the combat tracker core: a shallow embedding of `src/lib.rs`
(`Roll`, `HitPoints`, `Character`, `Roster`) together with proofs of the
specified properties.  Machine integers (`i64`) are modelled as `Int`; the
external randomized dice evaluator is modelled as an oracle `EvalState`
supplying the total of each successive evaluator invocation; Rust panics
(`expect`) are modelled as `Except` errors.
-/

namespace Combat

/-- Error raised when a roll formula is neither a dice expression nor a valid
integer literal; models the panic `expect("Invalid format for formula.")`. -/
inductive FormatError where
  | formatError
  deriving DecidableEq, Repr

/-- Error raised by `Roster::get` / `Roster::get_mut` on an absent name;
models the panic `expect("No character found with that name.")`. -/
inductive NotFoundError where
  | notFoundError
  deriving DecidableEq, Repr

/-- The ASCII digit character for a digit value `d < 10`. -/
def digitChar (d : Nat) : Char := Char.ofNat (48 + d)

/-- Numeric value of an ASCII digit character, `none` on a non-digit. -/
def digitVal? (c : Char) : Option Nat :=
  if c.isDigit then some (c.toNat - 48) else none

/-- Accumulating most-significant-first decimal parse of a digit string. -/
def parseDigitsAux : Nat → List Char → Option Nat
  | acc, [] => some acc
  | acc, c :: cs =>
    match digitVal? c with
    | some d => parseDigitsAux (acc * 10 + d) cs
    | none => none

/-- Parse a non-empty all-digit string. -/
def parseDigits? (cs : List Char) : Option Nat :=
  if cs.isEmpty then none else parseDigitsAux 0 cs

/-- Model of Rust `str::parse::<i64>`: an optional single sign followed by one
or more ASCII digits, failing when the value overflows the `i64` range. -/
def parseI64? (s : String) : Option Int :=
  match s.data with
  | [] => none
  | c :: cs =>
    if c = '-' then
      (parseDigits? cs).bind (fun n => if n ≤ 2 ^ 63 then some (-(n : Int)) else none)
    else if c = '+' then
      (parseDigits? cs).bind (fun n => if n < 2 ^ 63 then some ((n : Int)) else none)
    else
      (parseDigits? (c :: cs)).bind (fun n => if n < 2 ^ 63 then some ((n : Int)) else none)

/-- Most-significant-first decimal digits, with structural fuel so that the
definition evaluates by kernel reduction; `fuel ≥ n` suffices. -/
def natDigitsFuel : Nat → Nat → List Char
  | 0, _ => []
  | fuel + 1, n => if n = 0 then [] else natDigitsFuel fuel (n / 10) ++ [digitChar (n % 10)]

/-- Most-significant-first decimal digits of `n` (empty for `0`). -/
def natDigits (n : Nat) : List Char := natDigitsFuel n n

/-- Decimal digit string of a natural number. -/
def natStr (n : Nat) : List Char :=
  if n = 0 then ['0'] else natDigits n

/-- Model of the Rust `i64` `Display` rendering (`str(n)` in the spec): an
optional leading minus sign followed by the decimal digits of the magnitude. -/
def intStr (n : Int) : String :=
  if n < 0 then ⟨'-' :: natStr (-n).toNat⟩ else ⟨natStr n.toNat⟩

/-- Dice-expression marker test: Rust `self.formula.contains("d")`. -/
def hasDice (s : String) : Bool := s.data.contains 'd'

/-- The kind of a roll (`RollKind` in `src/lib.rs`). -/
inductive RollKind where
  | Normal
  | Advantage
  | Disadvantage
  | Cancelled
  deriving DecidableEq, Repr

/-- A dice roll formula together with its modifier (`Roll` in `src/lib.rs`). -/
structure Roll where
  formula : String
  kind : RollKind
  deriving DecidableEq, Repr

/-- `Roll::from`: create a new roll from a formula, kind `Normal`. -/
def Roll.«from» (formula : String) : Roll :=
  { formula := formula, kind := RollKind.Normal }

/-- `Roll::with`: set advantage or disadvantage, with cancellation. -/
def Roll.«with» (r : Roll) (kind : RollKind) : Roll :=
  if r.kind = RollKind.Normal then { r with kind := kind }
  else if r.kind ≠ kind then { r with kind := RollKind.Cancelled }
  else r

/-- State of the external dice evaluator: `draws i` is the total produced by
the `(i+1)`-th evaluator invocation of the run, and `idx` counts the
invocations made so far. -/
structure EvalState where
  draws : Nat → Int
  idx : Nat

/-- One invocation of the external evaluator, i.e. one `dr.roll().total()`:
an independent random draw of the formula's total. -/
def drawTotal (s : EvalState) : Int × EvalState :=
  (s.draws s.idx, { draws := s.draws, idx := s.idx + 1 })

/-- `Roll::roll`: resolve the roll.  A formula without the marker `"d"` is
parsed as an integer literal (a parse failure is the `expect` panic);
otherwise the external evaluator is invoked once, or twice for
advantage / disadvantage. -/
def Roll.roll (r : Roll) (s : EvalState) : Except FormatError (Int × EvalState) :=
  if !hasDice r.formula then
    match parseI64? r.formula with
    | some n => Except.ok (n, s)
    | none => Except.error FormatError.formatError
  else
    match r.kind with
    | RollKind.Advantage =>
      let a := drawTotal s
      let b := drawTotal a.2
      Except.ok (Max.max a.1 b.1, b.2)
    | RollKind.Disadvantage =>
      let a := drawTotal s
      let b := drawTotal a.2
      Except.ok (Min.min a.1 b.1, b.2)
    | _ =>
      let a := drawTotal s
      Except.ok (a.1, a.2)

/-- Hit points of a character (`HitPoints` in `src/lib.rs`). -/
structure HitPoints where
  max : Int
  current : Int
  temp : Int
  deriving DecidableEq, Repr

/-- `HitPoints::set_max`: resolve the formula, shift `current` by the delta
between the new and the old max, then store the new max. -/
def HitPoints.set_max (hp : HitPoints) (formula : String) (s : EvalState) :
    Except FormatError (HitPoints × EvalState) :=
  match Roll.roll (Roll.«from» formula) s with
  | Except.ok (total, s1) =>
    Except.ok ({ max := total, current := hp.current + (total - hp.max), temp := hp.temp }, s1)
  | Except.error e => Except.error e

/-- `HitPoints::is_set`: true if max hit points are set. -/
def HitPoints.is_set (hp : HitPoints) : Bool := hp.max > 0

/-- `HitPoints::deal`: deal damage, exactly as the source computes it
(`self.temp` is updated first and the *updated* value is then subtracted
from the pending damage). -/
def HitPoints.deal (hp : HitPoints) (dmg : Int) : HitPoints :=
  let d0 := dmg
  if hp.temp > 0 then
    let temp1 := Max.max (hp.temp - d0) 0
    let d1 := d0 - temp1
    if d1 > 0 then
      { max := hp.max, current := Max.max (hp.current - d1) 0, temp := temp1 }
    else
      { max := hp.max, current := hp.current, temp := temp1 }
  else
    if d0 > 0 then
      { max := hp.max, current := Max.max (hp.current - d0) 0, temp := hp.temp }
    else hp

/-- `HitPoints::heal`: heal damage, clamped at `max`. -/
def HitPoints.heal (hp : HitPoints) (dmg : Int) : HitPoints :=
  { max := hp.max, current := Min.min (hp.current + dmg) hp.max, temp := hp.temp }

/-- A single PC or NPC (`Character` in `src/lib.rs`). -/
structure Character where
  name : String
  init : Roll
  hp : HitPoints
  deriving DecidableEq, Repr

/-- `Character::dead`: true if the character is dead. -/
def Character.dead (c : Character) : Bool :=
  c.hp.max > 0 && c.hp.current < 1

/-- `Character::status`: user friendly status message. -/
def Character.status (c : Character) : String :=
  if c.dead then "DEAD"
  else if c.hp.is_set then intStr c.hp.current ++ " HP"
  else ""

/-- The roster (`Roster` in `src/lib.rs`): its `HashMap<String, Character>`
is modelled as an association list whose keys are unique. -/
structure Roster where
  chars : List (String × Character)
  deriving DecidableEq, Repr

/-- Model of `HashMap::get`: the value stored at a key. -/
def lookupName : List (String × Character) → String → Option Character
  | [], _ => none
  | p :: rest, name => if p.1 = name then some p.2 else lookupName rest name

/-- Model of `HashMap::remove`: drop the entry at a key (keys are unique in a
`HashMap`, so dropping every matching entry removes exactly that entry). -/
def removeKey (cs : List (String × Character)) (name : String) :
    List (String × Character) :=
  cs.filter (fun p => p.1 != name)

/-- `Roster::exists`: check if a character exists. -/
def Roster.«exists» (r : Roster) (name : String) : Bool :=
  (lookupName r.chars name).isSome

/-- `Roster::kill`: remove a character from the roster. -/
def Roster.kill (r : Roster) (name : String) : Roster :=
  { chars := removeKey r.chars name }

/-- `Roster::get`: retrieve a specific character; the panic on an absent name
is modelled as a `NotFoundError`. -/
def Roster.get (r : Roster) (name : String) : Except NotFoundError Character :=
  match lookupName r.chars name with
  | some c => Except.ok c
  | none => Except.error NotFoundError.notFoundError

/-- `Roster::get_mut`: retrieve a specific character mutably; same lookup and
failure behaviour as `Roster::get`. -/
def Roster.get_mut (r : Roster) (name : String) : Except NotFoundError Character :=
  match lookupName r.chars name with
  | some c => Except.ok c
  | none => Except.error NotFoundError.notFoundError

/-- `Roster::wipe`: collect the names of all dead characters, then remove the
characters by name. -/
def Roster.wipe (r : Roster) : Roster :=
  let dead := (r.chars.filter (fun p => p.2.dead)).map (fun p => p.1)
  { chars := dead.foldl (fun cs name => removeKey cs name) r.chars }

/-- A sample living character used by concrete witnesses. -/
def sampleAlive : Character :=
  { name := "Alice", init := { formula := "d20", kind := RollKind.Normal },
    hp := { max := 30, current := 10, temp := 0 } }

/-- A sample dead character used by concrete witnesses. -/
def sampleDead : Character :=
  { name := "Bob", init := { formula := "d20", kind := RollKind.Normal },
    hp := { max := 30, current := 0, temp := 0 } }

/-- A sample two-character roster used by concrete witnesses. -/
def sampleRoster : Roster :=
  { chars := [("Alice", sampleAlive), ("Bob", sampleDead)] }

/-! ### Decimal rendering and parsing lemmas -/

theorem digitVal?_digitChar (d : Nat) (h : d < 10) : digitVal? (digitChar d) = some d := by
  interval_cases d <;> decide

theorem digitChar_isDigit (d : Nat) (h : d < 10) : (digitChar d).isDigit = true := by
  interval_cases d <;> decide

theorem natDigitsFuel_isDigit (fuel : Nat) :
    ∀ n, ∀ c ∈ natDigitsFuel fuel n, c.isDigit = true := by
  induction fuel with
  | zero =>
    intro n c hc
    simp [natDigitsFuel] at hc
  | succ m ih =>
    intro n c hc
    simp only [natDigitsFuel] at hc
    by_cases h : n = 0
    · simp [h] at hc
    · rw [if_neg h] at hc
      rcases List.mem_append.mp hc with h1 | h2
      · exact ih (n / 10) c h1
      · rw [List.mem_singleton] at h2
        subst h2
        exact digitChar_isDigit _ (Nat.mod_lt _ (by decide))

theorem natDigits_isDigit (n : Nat) : ∀ c ∈ natDigits n, c.isDigit = true :=
  natDigitsFuel_isDigit n n

theorem natStr_isDigit (n : Nat) : ∀ c ∈ natStr n, c.isDigit = true := by
  unfold natStr
  by_cases h : n = 0
  · simp [h]
  · rw [if_neg h]
    exact natDigits_isDigit n

theorem parseDigitsAux_append (acc : Nat) (xs ys : List Char) :
    parseDigitsAux acc (xs ++ ys) =
      (parseDigitsAux acc xs).bind (fun a => parseDigitsAux a ys) := by
  induction xs generalizing acc with
  | nil => rfl
  | cons c cs ih =>
    simp only [List.cons_append, parseDigitsAux]
    cases h : digitVal? c with
    | some d => simp [h, ih]
    | none => simp [h]

theorem parseDigitsAux_natDigitsFuel (fuel : Nat) :
    ∀ n acc, n ≤ fuel →
      parseDigitsAux acc (natDigitsFuel fuel n)
        = some (acc * 10 ^ (natDigitsFuel fuel n).length + n) := by
  induction fuel with
  | zero =>
    intro n acc hle
    have hn : n = 0 := Nat.le_zero.mp hle
    subst hn
    simp [natDigitsFuel, parseDigitsAux]
  | succ m ih =>
    intro n acc hle
    simp only [natDigitsFuel]
    by_cases h : n = 0
    · simp [h, parseDigitsAux]
    · rw [if_neg h]
      rw [parseDigitsAux_append]
      have hdiv : n / 10 ≤ m := by
        have := Nat.div_lt_self (Nat.pos_of_ne_zero h) (by decide : 1 < 10)
        omega
      rw [ih (n / 10) acc hdiv]
      simp only [parseDigitsAux,
        digitVal?_digitChar (n % 10) (Nat.mod_lt _ (by decide))]
      rw [List.length_append, List.length_singleton]
      simp only [Option.some_bind]
      congr 1
      rw [pow_succ, ← mul_assoc]
      generalize acc * 10 ^ (natDigitsFuel m (n / 10)).length = k
      omega

theorem parseDigitsAux_natDigits (n : Nat) :
    ∀ acc, parseDigitsAux acc (natDigits n) = some (acc * 10 ^ (natDigits n).length + n) :=
  fun acc => parseDigitsAux_natDigitsFuel n n acc (le_refl n)

theorem natDigits_ne_nil (n : Nat) (h : n ≠ 0) : natDigits n ≠ [] := by
  cases n with
  | zero => exact absurd rfl h
  | succ m =>
    show natDigitsFuel (m + 1) (m + 1) ≠ []
    simp only [natDigitsFuel]
    rw [if_neg (Nat.succ_ne_zero m)]
    simp

theorem parseDigits?_natStr (n : Nat) : parseDigits? (natStr n) = some n := by
  unfold natStr
  by_cases h : n = 0
  · simp [h]
    decide
  · rw [if_neg h]
    unfold parseDigits?
    rw [if_neg (by simpa using natDigits_ne_nil n h)]
    rw [parseDigitsAux_natDigits n 0]
    simp

theorem natStr_ne_nil (n : Nat) : natStr n ≠ [] := by
  unfold natStr
  by_cases h : n = 0
  · simp [h]
  · rw [if_neg h]
    exact natDigits_ne_nil n h

theorem isDigit_ne_minus (c : Char) (h : c.isDigit = true) : c ≠ '-' := by
  intro hEq
  subst hEq
  simp at h

theorem isDigit_ne_plus (c : Char) (h : c.isDigit = true) : c ≠ '+' := by
  intro hEq
  subst hEq
  simp at h

theorem isDigit_ne_d (c : Char) (h : c.isDigit = true) : c ≠ 'd' := by
  intro hEq
  subst hEq
  simp at h

theorem parseI64?_intStr (n : Int) (h1 : -(2 ^ 63) ≤ n) (h2 : n < 2 ^ 63) :
    parseI64? (intStr n) = some n := by
  unfold intStr
  by_cases hn : n < 0
  · rw [if_pos hn]
    show (match ('-' :: natStr (-n).toNat : List Char) with
      | [] => none
      | c :: cs =>
        if c = '-' then
          (parseDigits? cs).bind (fun m => if m ≤ 2 ^ 63 then some (-(m : Int)) else none)
        else if c = '+' then
          (parseDigits? cs).bind (fun m => if m < 2 ^ 63 then some ((m : Int)) else none)
        else
          (parseDigits? (c :: cs)).bind (fun m => if m < 2 ^ 63 then some ((m : Int)) else none))
      = some n
    simp only [if_pos rfl]
    rw [parseDigits?_natStr]
    rw [Option.some_bind]
    rw [if_pos (by omega : (-n).toNat ≤ 2 ^ 63)]
    rw [Int.toNat_of_nonneg (by omega : (0 : Int) ≤ -n)]
    rw [neg_neg]
    simp
  · rw [if_neg hn]
    obtain ⟨c, cs, hcs⟩ := List.exists_cons_of_ne_nil (natStr_ne_nil n.toNat)
    have hdig : c.isDigit = true := natStr_isDigit n.toNat c (by rw [hcs]; exact List.mem_cons_self c cs)
    show (match (natStr n.toNat : List Char) with
      | [] => none
      | c :: cs =>
        if c = '-' then
          (parseDigits? cs).bind (fun m => if m ≤ 2 ^ 63 then some (-(m : Int)) else none)
        else if c = '+' then
          (parseDigits? cs).bind (fun m => if m < 2 ^ 63 then some ((m : Int)) else none)
        else
          (parseDigits? (c :: cs)).bind (fun m => if m < 2 ^ 63 then some ((m : Int)) else none))
      = some n
    rw [hcs]
    simp only [if_neg (isDigit_ne_minus c hdig), if_neg (isDigit_ne_plus c hdig)]
    rw [← hcs, parseDigits?_natStr]
    rw [Option.some_bind]
    rw [if_pos (by omega : n.toNat < 2 ^ 63)]
    rw [Int.toNat_of_nonneg (by omega : (0 : Int) ≤ n)]

theorem contains_eq_false_of_forall (l : List Char) (x : Char)
    (h : ∀ c ∈ l, c ≠ x) : l.contains x = false := by
  simp [List.contains]
  intro hmem
  exact h x hmem rfl

theorem hasDice_intStr (n : Int) : hasDice (intStr n) = false := by
  unfold hasDice intStr
  by_cases hn : n < 0
  · rw [if_pos hn]
    show (('-' :: natStr (-n).toNat).contains 'd') = false
    apply contains_eq_false_of_forall
    intro c hc
    rcases List.mem_cons.mp hc with h | h
    · subst h
      decide
    · exact isDigit_ne_d c (natStr_isDigit _ c h)
  · rw [if_neg hn]
    show ((natStr n.toNat).contains 'd') = false
    apply contains_eq_false_of_forall
    intro c hc
    exact isDigit_ne_d c (natStr_isDigit _ c hc)

/-! ### Roll resolution lemmas -/

theorem roll_intStr_eq (n : Int) (k : RollKind) (s : EvalState)
    (h1 : -(2 ^ 63) ≤ n) (h2 : n < 2 ^ 63) :
    Roll.roll (Roll.mk (intStr n) k) s = Except.ok (n, s) := by
  unfold Roll.roll
  simp [hasDice_intStr n, parseI64?_intStr n h1 h2]

theorem roll_noDice_eq (f : String) (k : RollKind) (s : EvalState)
    (hd : hasDice f = false) :
    Roll.roll (Roll.mk f k) s =
      (match parseI64? f with
       | some n => Except.ok (n, s)
       | none => Except.error FormatError.formatError) := by
  unfold Roll.roll
  simp [hd]

/-! ### Roster lemmas -/

theorem foldl_removeKey (names : List String) (cs : List (String × Character)) :
    names.foldl (fun acc name => removeKey acc name) cs
      = cs.filter (fun p => decide (p.1 ∉ names)) := by
  induction names generalizing cs with
  | nil => simp
  | cons nm ns ih =>
    rw [List.foldl_cons, ih]
    unfold removeKey
    rw [List.filter_filter]
    apply List.filter_congr
    intro p _
    by_cases h1 : p.1 = nm
    · simp [h1]
    · by_cases h2 : p.1 ∈ ns
      · simp [h1, h2]
      · simp [h1, h2]

theorem lookupName_eq_none_iff (cs : List (String × Character)) (name : String) :
    lookupName cs name = none ↔ name ∉ cs.map Prod.fst := by
  induction cs with
  | nil => simp [lookupName]
  | cons p rest ih =>
    simp only [lookupName, List.map_cons, List.mem_cons]
    by_cases h : p.1 = name
    · simp [h]
    · simp only [if_neg h, ih]
      constructor
      · intro hn
        intro hor
        rcases hor with hEq | hmem
        · exact h hEq.symm
        · exact hn hmem
      · intro hn hmem
        exact hn (Or.inr hmem)

theorem lookupName_mem (cs : List (String × Character)) (name : String) (c : Character)
    (hnd : (cs.map Prod.fst).Nodup) (hmem : (name, c) ∈ cs) :
    lookupName cs name = some c := by
  induction cs with
  | nil => simp at hmem
  | cons p rest ih =>
    rw [List.map_cons, List.nodup_cons] at hnd
    rcases List.mem_cons.mp hmem with h | h
    · rw [← h]
      simp [lookupName]
    · have hname : name ∈ rest.map Prod.fst := List.mem_map.mpr ⟨(name, c), h, rfl⟩
      have hne : ¬(p.1 = name) := fun hEq => hnd.1 (hEq ▸ hname)
      simp only [lookupName, if_neg hne]
      exact ih hnd.2 h

theorem roll_from_intStr_eq (n : Int) (s : EvalState)
    (h1 : -(2 ^ 63) ≤ n) (h2 : n < 2 ^ 63) :
    Roll.roll (Roll.«from» (intStr n)) s = Except.ok (n, s) :=
  roll_intStr_eq n RollKind.Normal s h1 h2

/-! ### The claims -/

/-- Claim C1 (refuted — code bug): the source updates `temp` first and then
subtracts the damage diminished by the *updated* temp from `current`.  At
`hp = ⟨30, 20, 5⟩` and damage `8` the updated temp is `0`, so `current`
drops by the full `8` to `12`, while the specified temp-absorption rule
requires `current = 20 - (8 - 5) = 17`.  At damage `4` (≤ temp) the code
still reduces `current` to `17`, while the claim requires it untouched. -/
theorem deal_temp_overflow_bug :
    HitPoints.deal (HitPoints.mk 30 20 5) 8 = HitPoints.mk 30 12 0 ∧
    (HitPoints.deal (HitPoints.mk 30 20 5) 8).current ≠ 20 - Max.max (8 - 5) 0 ∧
    HitPoints.deal (HitPoints.mk 30 20 5) 4 = HitPoints.mk 30 17 1 ∧
    (HitPoints.deal (HitPoints.mk 30 20 5) 4).current ≠ 20 := by
  decide

/-- Claim C2: a fresh `Roll` is `Normal`; `with k` on a `Normal` roll sets
`k`; `with k` on a different non-`Normal` kind yields `Cancelled`; `with k`
on a roll already of kind `k` is a no-op. -/
theorem rollKind_transition_spec (f : String) (k j : RollKind)
    (hk : k ≠ RollKind.Normal) :
    (Roll.«from» f).kind = RollKind.Normal ∧
    ((Roll.mk f RollKind.Normal).«with» k).kind = k ∧
    (j ≠ RollKind.Normal → j ≠ k → ((Roll.mk f j).«with» k).kind = RollKind.Cancelled) ∧
    ((Roll.mk f k).«with» k).kind = k := by
  refine ⟨rfl, ?_, ?_, ?_⟩
  · simp [Roll.«with»]
  · intro hj hjk
    cases k <;> cases j <;> simp_all [Roll.«with»]
  · cases k <;> simp_all [Roll.«with»]

theorem rollKind_transition_witness :
    RollKind.Advantage ≠ RollKind.Normal ∧
    RollKind.Disadvantage ≠ RollKind.Normal ∧
    RollKind.Disadvantage ≠ RollKind.Advantage ∧
    ((Roll.mk "d20" RollKind.Disadvantage).«with» RollKind.Advantage).kind
      = RollKind.Cancelled :=
  ⟨by decide, by decide, by decide,
    (rollKind_transition_spec "d20" RollKind.Advantage RollKind.Disadvantage
      (by decide)).2.2.1 (by decide) (by decide)⟩

/-- Claim C3: on a formula with the dice marker, `Advantage` resolves to the
maximum of two successive independent evaluator draws, `Disadvantage` to the
minimum, and `Normal` / `Cancelled` to a single draw, `Cancelled` resolving
exactly like `Normal`. -/
theorem roll_advantage_disadvantage_spec (f : String) (s : EvalState)
    (h : hasDice f = true) :
    Roll.roll (Roll.mk f RollKind.Advantage) s
      = Except.ok (Max.max (s.draws s.idx) (s.draws (s.idx + 1)),
          EvalState.mk s.draws (s.idx + 2)) ∧
    Roll.roll (Roll.mk f RollKind.Disadvantage) s
      = Except.ok (Min.min (s.draws s.idx) (s.draws (s.idx + 1)),
          EvalState.mk s.draws (s.idx + 2)) ∧
    Roll.roll (Roll.mk f RollKind.Normal) s
      = Except.ok (s.draws s.idx, EvalState.mk s.draws (s.idx + 1)) ∧
    Roll.roll (Roll.mk f RollKind.Cancelled) s
      = Roll.roll (Roll.mk f RollKind.Normal) s := by
  unfold Roll.roll drawTotal
  simp [h]

theorem roll_advantage_disadvantage_witness :
    hasDice "d20" = true ∧
    Roll.roll (Roll.mk "d20" RollKind.Advantage) (EvalState.mk (fun _ => (7 : Int)) 0)
      = Except.ok (Max.max (7 : Int) 7, EvalState.mk (fun _ => (7 : Int)) 2) :=
  ⟨by decide,
    (roll_advantage_disadvantage_spec "d20" (EvalState.mk (fun _ => (7 : Int)) 0)
      (by decide)).1⟩

/-- Claim C4: an integer-literal formula resolves to that integer with the
evaluator state untouched, and a formula with no dice marker that is not a
valid integer literal resolves to a `FormatError`. -/
theorem roll_integer_literal_spec (n : Int) (f : String) (k : RollKind) (s : EvalState)
    (h1 : -(2 ^ 63) ≤ n) (h2 : n < 2 ^ 63) :
    Roll.roll (Roll.«from» (intStr n)) s = Except.ok (n, s) ∧
    (hasDice f = false → parseI64? f = none →
      Roll.roll (Roll.mk f k) s = Except.error FormatError.formatError) := by
  constructor
  · exact roll_from_intStr_eq n s h1 h2
  · intro hd hp
    rw [roll_noDice_eq f k s hd, hp]

theorem roll_integer_literal_witness :
    (-(2 ^ 63) ≤ (5 : Int)) ∧ ((5 : Int) < 2 ^ 63) ∧
    hasDice "abc" = false ∧ parseI64? "abc" = none ∧
    Roll.roll (Roll.«from» (intStr 5)) (EvalState.mk (fun _ => (0 : Int)) 0)
      = Except.ok (5, EvalState.mk (fun _ => (0 : Int)) 0) ∧
    Roll.roll (Roll.mk "abc" RollKind.Normal) (EvalState.mk (fun _ => (0 : Int)) 0)
      = Except.error FormatError.formatError := by
  refine ⟨by norm_num, by norm_num, by decide, by decide, ?_, ?_⟩
  · exact (roll_integer_literal_spec 5 "abc" RollKind.Normal
      (EvalState.mk (fun _ => (0 : Int)) 0) (by norm_num) (by norm_num)).1
  · exact (roll_integer_literal_spec 5 "abc" RollKind.Normal
      (EvalState.mk (fun _ => (0 : Int)) 0) (by norm_num) (by norm_num)).2
      (by decide) (by decide)

/-- Claim C5: `set_max` with a formula resolving to `t` sets
`current := current + (t - old max)` and `max := t`, with no clamping: the
result may be negative or exceed the new max. -/
theorem set_max_no_clamp_spec (hp : HitPoints) (f : String) (s s1 : EvalState) (t : Int)
    (h : Roll.roll (Roll.«from» f) s = Except.ok (t, s1)) :
    hp.set_max f s
      = Except.ok (HitPoints.mk t (hp.current + (t - hp.max)) hp.temp, s1) ∧
    HitPoints.set_max (HitPoints.mk 30 5 0) (intStr 1) s
      = Except.ok (HitPoints.mk 1 (-24) 0, s) ∧
    HitPoints.set_max (HitPoints.mk 5 10 0) (intStr 7) s
      = Except.ok (HitPoints.mk 7 12 0, s) := by
  refine ⟨?_, ?_, ?_⟩
  · unfold HitPoints.set_max
    rw [h]
  · unfold HitPoints.set_max
    rw [roll_from_intStr_eq 1 s (by norm_num) (by norm_num)]
    norm_num
  · unfold HitPoints.set_max
    rw [roll_from_intStr_eq 7 s (by norm_num) (by norm_num)]
    norm_num

theorem set_max_no_clamp_witness :
    Roll.roll (Roll.«from» (intStr 2)) (EvalState.mk (fun _ => (0 : Int)) 0)
      = Except.ok (2, EvalState.mk (fun _ => (0 : Int)) 0) ∧
    HitPoints.set_max (HitPoints.mk 30 30 0) (intStr 2) (EvalState.mk (fun _ => (0 : Int)) 0)
      = Except.ok (HitPoints.mk 2 2 0, EvalState.mk (fun _ => (0 : Int)) 0) := by
  have h : Roll.roll (Roll.«from» (intStr 2)) (EvalState.mk (fun _ => (0 : Int)) 0)
      = Except.ok (2, EvalState.mk (fun _ => (0 : Int)) 0) :=
    roll_from_intStr_eq 2 (EvalState.mk (fun _ => (0 : Int)) 0) (by norm_num) (by norm_num)
  refine ⟨h, ?_⟩
  have h2 := (set_max_no_clamp_spec (HitPoints.mk 30 30 0) (intStr 2)
    (EvalState.mk (fun _ => (0 : Int)) 0) (EvalState.mk (fun _ => (0 : Int)) 0) 2 h).1
  rw [h2]
  norm_num

/-- Claim C6: `dead` holds exactly when `max > 0` and `current < 1`, and
`status` is `"DEAD"` when dead, `"{current} HP"` when max is set and not
dead, and empty otherwise. -/
theorem dead_status_spec (c : Character) :
    (c.dead = true ↔ (c.hp.max > 0 ∧ c.hp.current < 1)) ∧
    (c.dead = true → c.status = "DEAD") ∧
    (c.dead = false → c.hp.max > 0 → c.status = intStr c.hp.current ++ " HP") ∧
    (c.dead = false → ¬(c.hp.max > 0) → c.status = "") := by
  refine ⟨?_, ?_, ?_, ?_⟩
  · simp [Character.dead]
  · intro h
    simp [Character.status, h]
  · intro h1 h2
    simp [Character.status, h1, HitPoints.is_set, h2]
  · intro h1 h2
    simp [Character.status, h1, HitPoints.is_set, h2]

theorem dead_status_witness :
    sampleDead.dead = true ∧ sampleDead.status = "DEAD" ∧
    sampleAlive.dead = false ∧ sampleAlive.hp.max > 0 ∧
    sampleAlive.status = intStr sampleAlive.hp.current ++ " HP" :=
  ⟨by decide, (dead_status_spec sampleDead).2.1 (by decide), by decide, by decide,
    (dead_status_spec sampleAlive).2.2.1 (by decide) (by decide)⟩

/-- Claim C7: `heal` sets `current := min (current + amount) max`, never above
`max`, and leaves `temp` and `max` unchanged. -/
theorem heal_clamp_spec (hp : HitPoints) (a : Int) :
    (hp.heal a).current = Min.min (hp.current + a) hp.max ∧
    (hp.heal a).current ≤ hp.max ∧
    (hp.heal a).temp = hp.temp ∧
    (hp.heal a).max = hp.max :=
  ⟨rfl, min_le_right _ _, rfl, rfl⟩

/-- Claim C8: `wipe` removes exactly the characters that are dead at call
time and leaves every other entry unchanged (in order). -/
theorem wipe_exactly_dead_spec (r : Roster)
    (h : (r.chars.map Prod.fst).Nodup) :
    (r.wipe).chars = r.chars.filter (fun p => !(p.2.dead)) := by
  have hw : (r.wipe).chars
      = ((r.chars.filter (fun p => p.2.dead)).map (fun p => p.1)).foldl
          (fun cs name => removeKey cs name) r.chars := rfl
  rw [hw, foldl_removeKey]
  apply List.filter_congr
  intro p hp
  by_cases hd : p.2.dead = true
  · have hmem : p.1 ∈ (r.chars.filter (fun q => q.2.dead)).map (fun q => q.1) :=
      List.mem_map.mpr ⟨p, List.mem_filter.mpr ⟨hp, hd⟩, rfl⟩
    simp [hmem, hd]
  · have hd' : p.2.dead = false := by
      cases hdd : p.2.dead
      · rfl
      · exact absurd hdd hd
    have hnmem : p.1 ∉ (r.chars.filter (fun q => q.2.dead)).map (fun q => q.1) := by
      intro hmem
      obtain ⟨q, hq, hq1⟩ := List.mem_map.mp hmem
      have hqc := List.mem_filter.mp hq
      have hqp : q = p := List.inj_on_of_nodup_map h hqc.1 hp hq1
      rw [hqp] at hqc
      rw [hd'] at hqc
      exact Bool.noConfusion hqc.2
    simp [hnmem, hd']

theorem wipe_exactly_dead_witness :
    (sampleRoster.chars.map Prod.fst).Nodup ∧
    sampleRoster.wipe.chars = sampleRoster.chars.filter (fun p => !(p.2.dead)) :=
  ⟨by decide, wipe_exactly_dead_spec sampleRoster (by decide)⟩

/-- Claim C9: `get` and `get_mut` fail with `NotFoundError` exactly when the
name is absent, and return the stored character when present. -/
theorem roster_get_spec (r : Roster) (name : String) :
    (r.get name = Except.error NotFoundError.notFoundError ↔
      name ∉ r.chars.map Prod.fst) ∧
    (r.get_mut name = Except.error NotFoundError.notFoundError ↔
      name ∉ r.chars.map Prod.fst) ∧
    (∀ c : Character, (r.chars.map Prod.fst).Nodup → (name, c) ∈ r.chars →
      r.get name = Except.ok c ∧ r.get_mut name = Except.ok c) := by
  cases hl : lookupName r.chars name with
  | none =>
    have hnone := (lookupName_eq_none_iff r.chars name).mp hl
    refine ⟨?_, ?_, ?_⟩
    · unfold Roster.get
      rw [hl]
      exact iff_of_true rfl hnone
    · unfold Roster.get_mut
      rw [hl]
      exact iff_of_true rfl hnone
    · intro c hnd hmem
      have : name ∈ r.chars.map Prod.fst := List.mem_map.mpr ⟨(name, c), hmem, rfl⟩
      exact absurd this hnone
  | some c0 =>
    have hsome : name ∈ r.chars.map Prod.fst := by
      by_contra hn
      rw [(lookupName_eq_none_iff r.chars name).mpr hn] at hl
      exact Option.noConfusion hl
    refine ⟨?_, ?_, ?_⟩
    · unfold Roster.get
      rw [hl]
      exact iff_of_false (fun hh => Except.noConfusion hh) (fun hh => hh hsome)
    · unfold Roster.get_mut
      rw [hl]
      exact iff_of_false (fun hh => Except.noConfusion hh) (fun hh => hh hsome)
    · intro c hnd hmem
      have hc : lookupName r.chars name = some c := lookupName_mem r.chars name c hnd hmem
      rw [hl] at hc
      constructor
      · unfold Roster.get
        rw [hl, Option.some.inj hc]
      · unfold Roster.get_mut
        rw [hl, Option.some.inj hc]

theorem roster_get_witness :
    (sampleRoster.chars.map Prod.fst).Nodup ∧
    ("Alice", sampleAlive) ∈ sampleRoster.chars ∧
    sampleRoster.get "Alice" = Except.ok sampleAlive ∧
    (sampleRoster.get "Carol" = Except.error NotFoundError.notFoundError ↔
      "Carol" ∉ sampleRoster.chars.map Prod.fst) := by
  refine ⟨by decide, by decide, ?_, ?_⟩
  · exact ((roster_get_spec sampleRoster "Alice").2.2 sampleAlive (by decide) (by decide)).1
  · exact (roster_get_spec sampleRoster "Carol").1

/-- Claim C10: on a formula with no dice marker, the result is the parsed
integer whatever the kind, the evaluator state is untouched, and any two
resolutions agree. -/
theorem roll_no_dice_kind_irrelevant_spec (f : String) (k k' : RollKind)
    (s s' : EvalState) (hd : hasDice f = false) :
    Roll.roll (Roll.mk f k) s =
      (match parseI64? f with
       | some n => Except.ok (n, s)
       | none => Except.error FormatError.formatError) ∧
    (Roll.roll (Roll.mk f k) s).map Prod.fst
      = (Roll.roll (Roll.mk f k') s').map Prod.fst := by
  refine ⟨roll_noDice_eq f k s hd, ?_⟩
  rw [roll_noDice_eq f k s hd, roll_noDice_eq f k' s' hd]
  cases parseI64? f <;> rfl

theorem roll_no_dice_kind_irrelevant_witness :
    hasDice "17" = false ∧
    Roll.roll (Roll.mk "17" RollKind.Advantage) (EvalState.mk (fun _ => (0 : Int)) 0)
      = Except.ok (17, EvalState.mk (fun _ => (0 : Int)) 0) ∧
    (Roll.roll (Roll.mk "17" RollKind.Advantage) (EvalState.mk (fun _ => (0 : Int)) 0)).map Prod.fst
      = (Roll.roll (Roll.mk "17" RollKind.Disadvantage) (EvalState.mk (fun _ => (9 : Int)) 4)).map Prod.fst :=
  ⟨by decide,
    (roll_no_dice_kind_irrelevant_spec "17" RollKind.Advantage RollKind.Disadvantage
      (EvalState.mk (fun _ => (0 : Int)) 0) (EvalState.mk (fun _ => (9 : Int)) 4) (by decide)).1,
    (roll_no_dice_kind_irrelevant_spec "17" RollKind.Advantage RollKind.Disadvantage
      (EvalState.mk (fun _ => (0 : Int)) 0) (EvalState.mk (fun _ => (9 : Int)) 4) (by decide)).2⟩

end Combat
